import Mathlib

/-!
Verification of the iterative-physics 2D engine (Rust sources under
src/engine) against its natural-language specification.

Modelling conventions, used throughout:

* IEEE-754 doubles are modelled by exact rational arithmetic.  Where the
  Rust code divides by a value that can be zero, the model inherits the
  Lean convention x / 0 = 0; every such spot is commented.  Claims are
  never settled on a path where this convention differs from IEEE
  behaviour in a way that matters.
* Native transcendental routines (trigonometric call sites, square root,
  the constants pi and e) cannot be computed over the rationals.  They
  enter the model as explicit function parameters (for the square root)
  or as uninterpreted stub values (for the built-in table, whose only
  semantically relevant datum for the claims is the arity).
* HashMap and HashSet are modelled by association lists with
  first-match lookup and cons insertion, which reproduces the overwrite
  semantics of insert, and by membership-tested lists.
* The Rust evaluator recurses without any guard into user-defined
  function bodies and therefore diverges on self-referential
  definitions (a genuine possibility in the source).  The embedding
  makes every evaluator entry point take an explicit gas bound; gas
  exhaustion is reported with a model-only error value outOfGas that no
  source path produces.  All theorems hold for every (or every
  sufficiently large) gas.
-/

namespace IterPhys

/-- Error kinds of the engine, from src/engine/src/err.rs.  The final
constructor outOfGas is a model artifact marking exhaustion of the
explicit recursion bound; it corresponds to divergence of the source. -/
inductive Err
  | unsatisfiedVariable (name : String)
  | unsatisfiedFunction (name : String)
  | wrongNumberOfArguments (name : String) (expected found : Nat)
  | unexpectedComparison
  | expectedComparison
  | rootFindingDepthExceeded
  | invalidDimensions
  | invalidToken (c : String)
  | invalidMathSyntax (reason : String)
  | outOfGas
  deriving DecidableEq, Repr

/-- Association-list model of a HashMap with scalar values. -/
abbrev MapQ := List (String × ℚ)

/-- Lookup, first match wins (cons insertion makes this overwrite). -/
def mlookup (m : MapQ) (k : String) : Option ℚ :=
  match m with
  | [] => none
  | (k2, v) :: rest => if k2 = k then some v else mlookup rest k

/-- Insert with overwrite semantics. -/
def minsert (m : MapQ) (k : String) (v : ℚ) : MapQ := (k, v) :: m

/-- Sequence of inserts in left-to-right order (the later an entry
appears in the list, the more recent, so it shadows earlier ones). -/
def insertAll (m : MapQ) (kvs : List (String × ℚ)) : MapQ :=
  kvs.foldl (fun acc kv => kv :: acc) m

/-- Absolute value written as the source computes it, if-based so that
concrete runs evaluate by rewriting. -/
def qabs (q : ℚ) : ℚ := if q < 0 then -q else q

/-- Binary operations of the expression language
(src/engine/src/math/parse.rs, Operation). -/
inductive Operation
  | add
  | sub
  | multi
  | div
  | exp
  deriving DecidableEq, Repr

/-- Expression AST (src/engine/src/math/parse.rs, Node). -/
inductive Node
  | arithmetic (operation : Operation) (left right : Node)
  | number (n : ℚ)
  | var (name : String)
  | function (name : String) (args : List Node)
  | comparison (left right : Node)

/-- Real exponentiation powf restricted to the rationally representable
case of an integer exponent; no claim exercises the other case. -/
def qpow (a b : ℚ) : ℚ := if b.den = 1 then a ^ b.num else 0

/-- Combination step of the Arithmetic evaluation branch.  Division by
zero follows the Lean convention (the source produces an IEEE special
instead); no claim is settled on such a path. -/
def applyOp (op : Operation) (l r : ℚ) : ℚ :=
  match op with
  | .add => l + r
  | .sub => l - r
  | .multi => l * r
  | .div => l / r
  | .exp => qpow l r

/-- Function table entries (src/engine/src/math/solve.rs, Function).
For baked entries the native call site is carried as a Lean function;
for the transcendental built-ins it is a stub, commented where
introduced. -/
inductive EFunction
  | mathematical (node : Node) (argNames : List String)
  | baked (callSite : List ℚ → ℚ) (expected : Nat)

/-- An equation (src/engine/src/math/mod.rs, Equation): stable id, the
comparison node, and the set of names it depends on.  The source id is
a u8 assigned consecutively; the model uses Nat (the claims never build
more than a handful of equations). -/
structure Equation where
  id : Nat
  node : Node
  dependencies : List String

/-- The equation environment (src/engine/src/math/solve.rs,
Environment). -/
structure Environment where
  equations : List Equation
  functions : List (String × EFunction)
  constants : MapQ

/-- Lookup in the function table, first match wins. -/
def flookup (m : List (String × EFunction)) (k : String) : Option EFunction :=
  match m with
  | [] => none
  | (k2, v) :: rest => if k2 = k then some v else flookup rest k

/-- Insert into the function table with overwrite semantics. -/
def finsert (m : List (String × EFunction)) (k : String) (v : EFunction) :
    List (String × EFunction) := (k, v) :: m

/-- Set-style insert on a dependency list. -/
def depsInsert (name : String) (acc : List String) : List String :=
  if acc.contains name then acc else name :: acc

/-- Dependency analysis (Environment::analyze): record every variable
name and every function name occurring in the node. -/
def analyze (node : Node) (acc : List String) : List String :=
  match node with
  | .arithmetic _ left right => analyze right (analyze left acc)
  | .var name => depsInsert name acc
  | .function name args => analyzeList args (depsInsert name acc)
  | .comparison left right => analyze right (analyze left acc)
  | .number _ => acc
where
  analyzeList (args : List Node) (acc : List String) : List String :=
    match args with
    | [] => acc
    | a :: rest => analyzeList rest (analyze a acc)

/-- Parameter-list extraction for a candidate function definition: the
left-hand side arguments must all be bare variables. -/
def paramsOf (args : List Node) : Option (List String) :=
  match args with
  | [] => some []
  | .var n :: rest => (paramsOf rest).map (n :: ·)
  | _ :: _ => none

/-- One step of the Environment::build loop over parsed expressions.
A comparison whose left side is a function call with all-variable
arguments is recorded as a user-defined function; any other comparison
becomes an equation with the next id; every non-comparison node is
silently dropped.  The accumulator carries the id counter, the
equations built so far (in order) and the function table. -/
def buildStep (acc : Nat × List Equation × List (String × EFunction))
    (x : Node) : Nat × List Equation × List (String × EFunction) :=
  let (id, eqs, fns) := acc
  match x with
  | .comparison left right =>
    match left with
    | .function name args =>
      match paramsOf args with
      | some params =>
        (id, eqs, finsert fns name (.mathematical right params))
      | none =>
        (id + 1, eqs ++ [⟨id, .comparison left right, analyze (.comparison left right) []⟩], fns)
    | _ =>
      (id + 1, eqs ++ [⟨id, .comparison left right, analyze (.comparison left right) []⟩], fns)
  | _ => (id, eqs, fns)

/-- Environment construction from already parsed expressions
(Environment::build after its parse stage; the parse stage maps the
lexer and parser over the source strings and aborts on syntax errors,
which is not needed to settle the claims about the build loop). -/
def buildEnv (exprs : List Node) (functions : List (String × EFunction))
    (constants : MapQ) : Environment :=
  let (_, eqs, fns) := exprs.foldl buildStep (0, [], functions)
  ⟨eqs, fns, constants⟩

/-- Environment::build returns Result; after a successful parse the
build loop itself cannot fail. -/
def build (exprs : List Node) (functions : List (String × EFunction))
    (constants : MapQ) : Except Err Environment :=
  .ok (buildEnv exprs functions constants)

/-- Built-in function table (src/engine/src/math/solve.rs, builtin).
The native call sites are transcendental and uninterpreted here (stub
value 0); the arity data is the faithful part and the only part any
claim depends on. -/
def builtinFunctions : List (String × EFunction) :=
  [ ("sin", .baked (fun _ => 0) 1)
  , ("asin", .baked (fun _ => 0) 1)
  , ("cos", .baked (fun _ => 0) 1)
  , ("acos", .baked (fun _ => 0) 1)
  , ("tan", .baked (fun _ => 0) 1)
  , ("atan", .baked (fun _ => 0) 1)
  , ("log", .baked (fun _ => 0) 2)
  , ("ln", .baked (fun _ => 0) 1)
  , ("sqrt", .baked (fun _ => 0) 1)
  , ("nrt", .baked (fun _ => 0) 2) ]

/-- Built-in constants pi and e; their transcendental values are
uninterpreted stubs, only their presence in the table matters to the
claims. -/
def builtinConstants : MapQ := [("pi", 0), ("e", 0)]

/-- Outcome of trying one candidate equation for an implicit solve
(src/engine/src/math/solve.rs, VariableResolution). -/
inductive VariableResolution
  | success (v : ℚ)
  | unsatisfiedVariable (name : String)
  | ignore

/-- Newton iteration limit (find_root, MAX_DEPTH). -/
def MAX_DEPTH : Nat := 10000

/-- Newton convergence threshold (find_root, EPSILON).  The source
literal 0.00001 is idealised to the exact rational it denotes. -/
def EPSILON : ℚ := 1 / 100000

/-- Parameter binding for a user-defined function call: locals are
cleared, then each parameter is bound in order (later bindings shadow
earlier ones, as repeated HashMap inserts would). -/
def bindParams (names : List String) (vals : List ℚ) : MapQ :=
  (names.zip vals).foldl (fun m nv => (nv.1, nv.2) :: m) []

/-- First Success in the candidate outcome list, in order. -/
def firstSuccess (rs : List VariableResolution) : Option ℚ :=
  match rs with
  | [] => none
  | .success v :: _ => some v
  | _ :: rest => firstSuccess rest

/-- First bubbled-up unresolved dependency, in order. -/
def firstUnsatisfied (rs : List VariableResolution) : Option String :=
  match rs with
  | [] => none
  | .unsatisfiedVariable n :: _ => some n
  | .success _ :: rest => firstUnsatisfied rest
  | .ignore :: rest => firstUnsatisfied rest

mutual

/-- The expression evaluator (src/engine/src/math/solve.rs, evaluate).
Arguments: the environment, the gas bound, the node, the visited
equation-id stack, the local bindings and the shared memo map.  The
shared-by-handle memo of the source is threaded through explicitly and
returned alongside the result, so mutations made by nested solves
survive, as the Rc of the source arranges. -/
def evaluate (env : Environment) (gas : Nat) (node : Node)
    (stack : List Nat) (locals : MapQ) (memo : MapQ) :
    (Except Err ℚ) × MapQ :=
  match gas with
  | 0 => (.error .outOfGas, memo)
  | gas + 1 =>
    match node with
    | .number n => (.ok n, memo)
    | .arithmetic op left right =>
      match evaluate env gas left stack locals memo with
      | (.error e, m) => (.error e, m)
      | (.ok lv, m1) =>
        match evaluate env gas right stack locals m1 with
        | (.error e, m) => (.error e, m)
        | (.ok rv, m2) => (.ok (applyOp op lv rv), m2)
    | .var name =>
      match mlookup locals name with
      | some x => (.ok x, memo)
      | none =>
        match mlookup memo name with
        | some x => (.ok x, memo)
        | none =>
          match mlookup env.constants name with
          | some x => (.ok x, memo)
          | none =>
            match resolveCandidates env gas
                (env.equations.filter (fun e => e.dependencies.contains name))
                name stack memo with
            | (.error e, m) => (.error e, m)
            | (.ok results, m) =>
              match firstSuccess results with
              | some v => (.ok v, m)
              | none =>
                match firstUnsatisfied results with
                | some u => (.error (.unsatisfiedVariable u), m)
                | none => (.error (.unsatisfiedVariable name), m)
    | .function name args =>
      match flookup env.functions name with
      | none => (.error (.unsatisfiedFunction name), memo)
      | some f =>
        match evalArgs env gas args stack locals memo with
        | (.error e, m) => (.error e, m)
        | (.ok argv, m1) =>
          match f with
          | .mathematical fnode argNames =>
            if argv.length ≠ argNames.length then
              (.error (.wrongNumberOfArguments name argNames.length argv.length), m1)
            else
              evaluate env gas fnode stack (bindParams argNames argv) m1
          | .baked callSite expected =>
            if argv.length ≠ expected then
              (.error (.wrongNumberOfArguments name expected argv.length), m1)
            else
              (.ok (callSite argv), m1)
    | .comparison _ _ => (.error .unexpectedComparison, memo)

/-- Sequential evaluation of function-call arguments, short-circuiting
on the first error, memo threaded through. -/
def evalArgs (env : Environment) (gas : Nat) (args : List Node)
    (stack : List Nat) (locals : MapQ) (memo : MapQ) :
    (Except Err (List ℚ)) × MapQ :=
  match gas with
  | 0 => (.error .outOfGas, memo)
  | gas + 1 =>
    match args with
    | [] => (.ok [], memo)
    | a :: rest =>
      match evaluate env gas a stack locals memo with
      | (.error e, m) => (.error e, m)
      | (.ok v, m1) =>
        match evalArgs env gas rest stack locals m1 with
        | (.error e, m) => (.error e, m)
        | (.ok vs, m2) => (.ok (v :: vs), m2)

/-- Attempt every candidate equation in order (the Variable branch of
evaluate maps over all candidates before selecting).  A visited
equation yields Ignore; an unvisited one is pushed onto the stack with
locals cleared, and Newton root finding is run on lhs minus rhs with
initial guess zero.  A nested UnsatisfiedVariable is recorded; any
other error aborts the whole scan. -/
def resolveCandidates (env : Environment) (gas : Nat) (eqs : List Equation)
    (name : String) (stack : List Nat) (memo : MapQ) :
    (Except Err (List VariableResolution)) × MapQ :=
  match gas with
  | 0 => (.error .outOfGas, memo)
  | gas + 1 =>
    match eqs with
    | [] => (.ok [], memo)
    | eq :: rest =>
      if stack.contains eq.id then
        match resolveCandidates env gas rest name stack memo with
        | (.error e, m) => (.error e, m)
        | (.ok rs, m) => (.ok (.ignore :: rs), m)
      else
        match eq.node with
        | .comparison left right =>
          match findRootLoop env gas (.arithmetic .sub left right) name
              (eq.id :: stack) MAX_DEPTH 0 memo with
          | (.ok v, m1) =>
            match resolveCandidates env gas rest name stack m1 with
            | (.error e, m) => (.error e, m)
            | (.ok rs, m) => (.ok (.success v :: rs), m)
          | (.error (.unsatisfiedVariable x), m1) =>
            match resolveCandidates env gas rest name stack m1 with
            | (.error e, m) => (.error e, m)
            | (.ok rs, m) => (.ok (.unsatisfiedVariable x :: rs), m)
          | (.error e, m) => (.error e, m)
        | _ => (.error .expectedComparison, memo)

/-- The Newton iteration of find_root (src/engine/src/math/solve.rs).
Per iteration the target local is set to the current point and to the
current point plus EPSILON, the node is evaluated at both, the secant
slope is formed, and the next point is taken.  On convergence the next
point is memoized under the target name and returned.  The loop bound
is the real MAX_DEPTH of the source; fuel exhaustion is the
RootFindingDepthExceeded failure.  A zero slope makes the source
iterate non-finite (x over zero is an IEEE infinity or NaN), and from
a non-finite point it stays non-finite: the two samples coincide (a
non-finite point plus EPSILON is itself), so every later slope is
zero again and every later convergence test compares infinities or
NaNs and fails.  No evaluation after the first iteration can raise a
new error or write the memo either, because every variable of the node
was already resolved and memoized (or aborted the loop) at the first
iteration, so the poisoned loop just burns the remaining budget and
ends in RootFindingDepthExceeded with the memo as written so far; the
model returns that outcome at the zero-slope iteration itself. -/
def findRootLoop (env : Environment) (gas : Nat) (node : Node)
    (target : String) (stack : List Nat) (fuel : Nat) (last : ℚ)
    (memo : MapQ) : (Except Err ℚ) × MapQ :=
  match fuel with
  | 0 => (.error .rootFindingDepthExceeded, memo)
  | fuel + 1 =>
    match gas with
    | 0 => (.error .outOfGas, memo)
    | gas + 1 =>
      match evaluate env gas node stack [(target, last)] memo with
      | (.error e, m) => (.error e, m)
      | (.ok xI, m1) =>
        match evaluate env gas node stack [(target, last + EPSILON)] m1 with
        | (.error e, m) => (.error e, m)
        | (.ok xIE, m2) =>
          let slope := (xIE - xI) / EPSILON
          if slope = 0 then (.error .rootFindingDepthExceeded, m2)
          else
            let next := last - xI / slope
            if qabs (last - next) < EPSILON then
              (.ok next, minsert m2 target next)
            else
              findRootLoop env gas node target stack fuel next m2

end

/-- Entry point of Newton root finding (find_root): the full MAX_DEPTH
iteration budget from the given guess. -/
def find_root (env : Environment) (gas : Nat) (node : Node)
    (target : String) (stack : List Nat) (guess : ℚ) (memo : MapQ) :
    (Except Err ℚ) × MapQ :=
  findRootLoop env gas node target stack MAX_DEPTH guess memo

/-- Environment::evaluate: evaluate a variable in a fresh frame whose
memo is seeded with the override map. -/
def envEvaluate (env : Environment) (gas : Nat) (varName : String)
    (overrides : MapQ) : (Except Err ℚ) × MapQ :=
  evaluate env gas (.var varName) [] [] overrides

end IterPhys

namespace IterPhys

/-! Lexer (src/engine/src/math/parse.rs). -/

/-- Token kinds (parse.rs, Token). -/
inductive TokenM
  | op (o : Operation)
  | openParen
  | closeParen
  | comma
  | equals
  | number (q : ℚ)
  | text (s : String)
  deriving DecidableEq, Repr

/-- Digit test of the lexer. -/
def isDigit (c : Char) : Bool := '0' ≤ c && c ≤ '9'

/-- Letter test of the lexer (is_character): ascii letters only;
underscore and digits are not included, underscore is admitted only as
a continuation character below. -/
def isCharacter (c : Char) : Bool :=
  ('a' ≤ c && c ≤ 'z') || ('A' ≤ c && c ≤ 'Z')

/-- Value of a digit string. -/
def digitsVal (ds : List Char) : ℕ :=
  ds.foldl (fun acc c => 10 * acc + (c.toNat - '0'.toNat)) 0

/-- Parse the collected digit-and-dot characters as the source parses
them into an f64: at most one dot; an empty fractional part is allowed.
The numeric value is taken exactly (the source rounds to the nearest
double). -/
def parseNumber (cs : List Char) : Except Err ℚ :=
  let ip := cs.takeWhile (fun c => c ≠ '.')
  match cs.dropWhile (fun c => c ≠ '.') with
  | [] => .ok (digitsVal ip)
  | _ :: fp =>
    if fp.contains '.' then
      .error (.invalidMathSyntax "Unable to convert number to float. ")
    else
      .ok ((digitsVal ip : ℚ) + (digitsVal fp : ℚ) / (10 : ℚ) ^ fp.length)

/-- One lexer step (Lexer::exec): skip spaces, then produce one token
and the remaining input, or none at the end of input. -/
def exec (chars : List Char) : Except Err (Option (TokenM × List Char)) :=
  match chars.dropWhile (fun c => c = ' ') with
  | [] => .ok none
  | c :: rest =>
    if isDigit c then
      let ds := rest.takeWhile (fun x => isDigit x || x = '.')
      let rem := rest.dropWhile (fun x => isDigit x || x = '.')
      match parseNumber (c :: ds) with
      | .error e => .error e
      | .ok q => .ok (some (.number q, rem))
    else if isCharacter c then
      let ns := rest.takeWhile (fun x => isCharacter x || x = '_')
      let rem := rest.dropWhile (fun x => isCharacter x || x = '_')
      .ok (some (.text ⟨c :: ns⟩, rem))
    else
      match c with
      | '+' => .ok (some (.op .add, rest))
      | '-' => .ok (some (.op .sub, rest))
      | '*' => .ok (some (.op .multi, rest))
      | '/' => .ok (some (.op .div, rest))
      | '^' => .ok (some (.op .exp, rest))
      | '(' => .ok (some (.openParen, rest))
      | ')' => .ok (some (.closeParen, rest))
      | ',' => .ok (some (.comma, rest))
      | '=' => .ok (some (.equals, rest))
      | _ => .error (.invalidToken (String.singleton c))

/-- Repeated lexer steps.  Every successful step consumes at least one
character, so fuel equal to the input length plus one never runs out;
outOfGas is a model artifact on that account. -/
def lexAll (fuel : Nat) (chars : List Char) : Except Err (List TokenM) :=
  match fuel with
  | 0 => .error .outOfGas
  | fuel + 1 =>
    match exec chars with
    | .error e => .error e
    | .ok none => .ok []
    | .ok (some (t, rest)) =>
      match lexAll fuel rest with
      | .error e => .error e
      | .ok ts => .ok (t :: ts)

/-- Lex a whole string. -/
def lexString (s : String) : Except Err (List TokenM) :=
  lexAll (s.length + 1) s.data

/-! Integration helpers (src/engine/src/math/mod.rs, integration). -/

/-- leapfrog_displacement from the source. -/
def leapfrog_displacement (delta displacement velocity acceleration : ℚ) : ℚ :=
  let v := velocity * delta
  let accel := 1 / 2 * acceleration * delta ^ 2
  displacement + v + accel

/-- leapfrog_velocity from the source. -/
def leapfrog_velocity (delta velocity acceleration next_acceleration : ℚ) : ℚ :=
  let accel := 1 / 2 * (acceleration + next_acceleration) * delta
  velocity + accel

/-! Body model and the per-tick kinematic update (src/engine/src/lib.rs). -/

/-- Componentwise sum of two generic vectors (Matrix::plus on columns). -/
def lplus (a b : List ℚ) : List ℚ := List.zipWith (· + ·) a b

/-- Scalar multiple of a generic vector (Matrix::scale). -/
def lscale (c : ℚ) (l : List ℚ) : List ℚ := l.map (fun x => c * x)

/-- Vector::new with its dimension check (InvalidDimensions on length
mismatch). -/
def colNew (dof : Nat) (l : List ℚ) : Except Err (List ℚ) :=
  if l.length = dof then .ok l else .error .invalidDimensions

/-- A named basis (lib.rs, Basis): the symbol used in equations and the
axis suffix used for injected scalars. -/
structure Basis where
  name : String
  axis : String

/-- The 2D linear bases of Space2D. -/
def LINEAR_BASES : List Basis := [⟨"hati", "x"⟩, ⟨"hatj", "y"⟩]

/-- The 2D angular basis of Space2D. -/
def ANGULAR_BASES : List Basis := [⟨"hatk", "theta"⟩]

/-- World-plane vector, the concrete Column of Space2D. -/
abbrev Vec2 := ℚ × ℚ

/-- Body shapes (lib.rs, Shape).  The ellipse variant is reserved; the
collider panics on it, modelled below by an absent result. -/
inductive ShapeM
  | rect (width height : ℚ)
  | ellipse (major minor : ℚ)
  | manifold (ps : List Vec2)
  deriving DecidableEq

/-- BodyState with its three generic vectors, list-represented as the
source treats them through the Vector capability. -/
structure KState where
  displacement : List ℚ
  velocity : List ℚ
  acceleration : List ℚ
  deriving DecidableEq

/-- A body (lib.rs, Body): name, shape, linear and angular state, and
the two scalar properties. -/
structure BodyM where
  name : String
  shape : ShapeM
  linear : KState
  angular : KState
  mass : ℚ
  moi : ℚ
  deriving DecidableEq

/-- The override entries Engine::eval_impl inserts, in source order:
zeros for the probed bases, then for every body the axis displacement
scalars, the axis velocity scalars, the same two groups for the other
motion kind, and the mass and moment of inertia.  Indexed access into
the state vectors is rendered by zipping with the basis list (the
source would panic on a malformed body whose state is shorter than the
dof; such bodies do not occur). -/
def overridesKvs (bases extraBases : List Basis) (sel extraSel : BodyM → KState)
    (bodies : List BodyM) : List (String × ℚ) :=
  bases.map (fun bs => (bs.name, (0 : ℚ)))
  ++ bodies.flatMap (fun x =>
      (bases.zip (sel x).displacement).map
        (fun p => (p.1.axis ++ "_" ++ x.name, p.2))
      ++ (bases.zip (sel x).velocity).map
        (fun p => ("v_" ++ p.1.axis ++ "_" ++ x.name, p.2))
      ++ (extraBases.zip (extraSel x).displacement).map
        (fun p => (p.1.axis ++ "_" ++ x.name, p.2))
      ++ (extraBases.zip (extraSel x).velocity).map
        (fun p => ("v_" ++ p.1.axis ++ "_" ++ x.name, p.2))
      ++ [("m_" ++ x.name, x.mass), ("I_" ++ x.name, x.moi)])

/-- The per-basis probe loop of eval_impl: with basis i set to one and
all others zero, evaluate the probed form; collect the scalars.  An
UnsatisfiedVariable naming exactly the probed form means the quantity
is undefined (probe result none); any other error is fatal.  The
iteration collects exactly as the Result-of-Option collect of the
source: the first fatal error wins, otherwise the first undefined
probe.  Each evaluation receives a fresh memo seeded from the
overrides, as the source clones the override map per call. -/
def probeLoop (env : Environment) (gas : Nat) (form : String) (base : MapQ) :
    List Basis → Except Err (Option (List ℚ))
  | [] => .ok (some [])
  | bs :: rest =>
    match envEvaluate env gas form (minsert base bs.name 1) with
    | (.ok x, _) =>
      match probeLoop env gas form base rest with
      | .error e => .error e
      | .ok none => .ok none
      | .ok (some xs) => .ok (some (x :: xs))
    | (.error (.unsatisfiedVariable y), _) =>
      if y = form then .ok none else .error (.unsatisfiedVariable y)
    | (.error e, _) => .error e

/-- Engine::eval_impl: build the override map and probe the form
var_owner once per basis of the probed kind. -/
def eval_impl (env : Environment) (gas : Nat) (varSym owner : String)
    (bases : List Basis) (sel : BodyM → KState)
    (extraBases : List Basis) (extraSel : BodyM → KState)
    (bodies : List BodyM) : Except Err (Option (List ℚ)) :=
  let base := insertAll [] (overridesKvs bases extraBases sel extraSel bodies)
  probeLoop env gas (varSym ++ "_" ++ owner) base bases

/-- The update_state macro body of Engine::tick for one body and one
motion kind.  Probes run in priority order displacement, velocity,
acceleration; the first defined one is integrated; with none defined
the velocity is integrated inertially.  The returned pair carries the
possibly partially updated state together with the error that aborted
the tick, if any; assignments already performed before a failure are
kept, exactly as the in-place mutation of the source keeps them. -/
def update_state (env : Environment) (gas : Nat) (deltaT : ℚ)
    (prev : List BodyM) (dSym vSym aSym owner : String)
    (bases : List Basis) (sel : BodyM → KState)
    (extraBases : List Basis) (extraSel : BodyM → KState)
    (dof : Nat) (st : KState) (skipAccel : Bool) : KState × Option Err :=
  match eval_impl env gas dSym owner bases sel extraBases extraSel prev with
  | .error e => (st, some e)
  | .ok (some s) =>
    match colNew dof s with
    | .error e => (st, some e)
    | .ok sv =>
      let oldDisplacement := st.displacement
      let st1 := { st with displacement := sv }
      let st2 := { st1 with
        velocity := lscale deltaT (lplus st1.displacement (lscale (-1) oldDisplacement)) }
      (st2, none)
  | .ok none =>
    match eval_impl env gas vSym owner bases sel extraBases extraSel prev with
    | .error e => (st, some e)
    | .ok (some v) =>
      match colNew dof v with
      | .error e => (st, some e)
      | .ok vv =>
        let st1 := { st with velocity := vv }
        let st2 := { st1 with
          displacement := lplus st1.displacement (lscale deltaT vv) }
        (st2, none)
    | .ok none =>
      match eval_impl env gas aSym owner bases sel extraBases extraSel prev with
      | .error e => (st, some e)
      | .ok (some a) =>
        if skipAccel then
          ({ st with displacement := lplus st.displacement (lscale deltaT st.velocity) },
           none)
        else
          match colNew dof
              ((a.zip (st.velocity.zip st.acceleration)).map
                (fun p => leapfrog_velocity deltaT p.2.1 p.2.2 p.1)) with
          | .error e => (st, some e)
          | .ok vv =>
            let st1 := { st with velocity := vv }
            match colNew dof
                ((a.zip (st1.displacement.zip st1.velocity)).map
                  (fun p => leapfrog_displacement deltaT p.2.1 p.2.2 p.1)) with
            | .error e => (st1, some e)
            | .ok sv =>
              let st2 := { st1 with displacement := sv }
              match colNew dof a with
              | .error e => (st2, some e)
              | .ok av => ({ st2 with acceleration := av }, none)
      | .ok none =>
        ({ st with displacement := lplus st.displacement (lscale deltaT st.velocity) },
         none)

/-- One body of the tick integration loop: linear kind first, then
angular, each through update_state; a failure keeps whatever was
already assigned and aborts. -/
def updateBody (env : Environment) (gas : Nat) (deltaT : ℚ)
    (prev : List BodyM) (body : BodyM) : BodyM × Option Err :=
  match update_state env gas deltaT prev "s" "v" "a" body.name
      LINEAR_BASES (fun x => x.linear) ANGULAR_BASES (fun x => x.angular)
      2 body.linear false with
  | (lin, some e) => ({ body with linear := lin }, some e)
  | (lin, none) =>
    let b1 := { body with linear := lin }
    match update_state env gas deltaT prev "q" "omega" "alpha" b1.name
        ANGULAR_BASES (fun x => x.angular) LINEAR_BASES (fun x => x.linear)
        1 b1.angular false with
    | (ang, e) => ({ b1 with angular := ang }, e)

/-- The tick integration loop over all bodies.  Integration of body k
mutates it in place; when it fails the loop stops, every body already
processed keeps its new state, body k keeps its partial update, and
the remaining bodies are untouched. -/
def integrateAll (env : Environment) (gas : Nat) (deltaT : ℚ)
    (prev : List BodyM) : List BodyM → List BodyM × Option Err
  | [] => ([], none)
  | b :: rest =>
    match updateBody env gas deltaT prev b with
    | (b1, some e) => (b1 :: rest, some e)
    | (b1, none) =>
      match integrateAll env gas deltaT prev rest with
      | (rest1, e) => (b1 :: rest1, e)

end IterPhys

namespace IterPhys

/-! Plane vectors and the impulse response (src/engine/src/lib.rs). -/

/-- Componentwise sum on the concrete 2D column. -/
def vplus (a b : Vec2) : Vec2 := (a.1 + b.1, a.2 + b.2)

/-- Scalar multiple on the concrete 2D column. -/
def vscale (c : ℚ) (v : Vec2) : Vec2 := (c * v.1, c * v.2)

/-- Dot product. -/
def vdot (a b : Vec2) : ℚ := a.1 * b.1 + a.2 * b.2

/-- Euclidean magnitude; the square root is the native routine of the
source and enters as the parameter sq. -/
def vmag (sq : ℚ → ℚ) (v : Vec2) : ℚ := sq (v.1 ^ 2 + v.2 ^ 2)

/-- Vector::unit: the zero vector stays zero, otherwise scale by the
reciprocal magnitude. -/
def vunit (sq : ℚ → ℚ) (v : Vec2) : Vec2 :=
  let m := vmag sq v
  if m = 0 then (0, 0) else vscale (1 / m) v

/-- Space2D::cross_both, the 2D angular-by-linear cross product. -/
def cross_both (w : ℚ) (r : Vec2) : Vec2 := (-w * r.2, w * r.1)

/-- Space2D::cross_linear, the 2D linear-by-linear cross product. -/
def cross_linear (a b : Vec2) : ℚ := a.1 * b.2 - a.2 * b.1

/-- Read a generic linear state vector as a plane vector (the source
indexes components and would panic on a malformed body; absent
components default to zero here). -/
def vec2Of (l : List ℚ) : Vec2 := (l.getD 0 0, l.getD 1 0)

/-- Read a generic angular state vector as its single scalar. -/
def scal1Of (l : List ℚ) : ℚ := l.getD 0 0

/-- Store a plane vector back into the generic representation. -/
def listOfVec2 (v : Vec2) : List ℚ := [v.1, v.2]

/-- A detected collision (lib.rs, Collision): representative contact
point, contact normal relative to the first body, and penetration
depth. -/
structure Collision2 where
  point : Vec2
  normal : Vec2
  depth : ℚ
  deriving DecidableEq

/-- Contact offset r from the body centroid to the contact point. -/
def penVec (c : Collision2) (b : BodyM) : Vec2 :=
  vplus c.point (vscale (-1) (vec2Of b.linear.displacement))

/-- Velocity of the body material point at the contact:
v plus omega cross r. -/
def pointVelocity (b : BodyM) (pen : Vec2) : Vec2 :=
  vplus (vec2Of b.linear.velocity) (cross_both (scal1Of b.angular.velocity) pen)

/-- The normal component of the relative contact velocity, as
calculate_impulse computes it (normal renormalised through sq). -/
def vRelN (sq : ℚ → ℚ) (a b : BodyM) (c : Collision2) : ℚ :=
  vdot
    (vplus (pointVelocity b (penVec c b))
      (vscale (-1) (pointVelocity a (penVec c a))))
    (vunit sq c.normal)

/-- Sum of inverse masses; a nonpositive mass contributes zero. -/
def invMassSum (a b : BodyM) : ℚ :=
  (if 0 < a.mass then 1 / a.mass else 0) + (if 0 < b.mass then 1 / b.mass else 0)

/-- Angular term of one body: squared magnitude of r cross n over the
moment of inertia; a nonpositive moment contributes zero.  The source
takes magnitude (a native square root) of the one-component column and
squares it with powi. -/
def angTerm (sq : ℚ → ℚ) (body : BodyM) (c : Collision2) : ℚ :=
  let rxn := cross_linear (penVec c body) (vunit sq c.normal)
  if 0 < body.moi then (sq (rxn ^ 2)) ^ 2 / body.moi else 0

/-- Denominator of the impulse formula. -/
def impulseDenom (sq : ℚ → ℚ) (a b : BodyM) (c : Collision2) : ℚ :=
  invMassSum a b + angTerm sq a c + angTerm sq b c

/-- Engine::calculate_impulse: zero for a separating contact, zero for
a vanishing denominator, otherwise the restitution-scaled impulse
magnitude. -/
def calculate_impulse (sq : ℚ → ℚ) (a b : BodyM) (c : Collision2)
    (restitution : ℚ) : ℚ :=
  if 0 < vRelN sq a b c then 0
  else if impulseDenom sq a b c = 0 then 0
  else (-(1 + restitution) * vRelN sq a b c) / impulseDenom sq a b c

/-- One side of Engine::apply_impulse: velocity gains
sign times impulse over mass along the raw collision normal, angular
velocity gains the matching cross term.  A zero mass or moment of
inertia makes the source divide by zero (an IEEE special); the model
inherits the Lean zero convention and no claim is settled there. -/
def applyImpulseTo (impulse : ℚ) (c : Collision2) (sign : ℚ)
    (body : BodyM) : BodyM :=
  let deltaV := vscale (sign * impulse / body.mass) c.normal
  let deltaOmega :=
    cross_linear (penVec c body) (vscale (sign * impulse / body.moi) c.normal)
  { body with
    linear := { body.linear with
      velocity := listOfVec2 (vplus (vec2Of body.linear.velocity) deltaV) },
    angular := { body.angular with
      velocity := [scal1Of body.angular.velocity + deltaOmega] } }

/-- Engine::apply_impulse: equal and opposite application to the two
bodies. -/
def apply_impulse (sq : ℚ → ℚ) (a b : BodyM) (c : Collision2)
    (restitution : ℚ) : BodyM × BodyM :=
  let impulse := calculate_impulse sq a b c restitution
  (applyImpulseTo impulse c (-1) a, applyImpulseTo impulse c 1 b)

/-- Iteration bound of the positional correction. -/
def CORRECTIVE_FRAMES : Nat := 100

/-- Engine::apply_correction: push the moving body along the negated
normal by depth over mass, re-run the collider against the anchor, stop
when it reports no collision, else continue with the new collision, up
to CORRECTIVE_FRAMES times. -/
def apply_correction (collider : BodyM → BodyM → Option Collision2) :
    Nat → BodyM → BodyM → Collision2 → BodyM
  | 0, a, _, _ => a
  | fuel + 1, a, b, c =>
    let correction := c.depth / a.mass
    let d1 := vplus (vec2Of a.linear.displacement) (vscale (-correction) c.normal)
    let a1 := { a with linear := { a.linear with displacement := listOfVec2 d1 } }
    match collider a1 b with
    | some c2 => apply_correction collider fuel a1 b c2
    | none => a1

/-- Inner loop of the collision phase: the body at the current outer
index against every later body, in order; on a collision the contact
point is recorded, impulses are applied to both bodies, then the first
body is corrected against the second and the second against the
(already corrected) first. -/
def processPairs (collider : BodyM → BodyM → Option Collision2)
    (sq : ℚ → ℚ) (restitution : ℚ) :
    BodyM → List BodyM → BodyM × List BodyM × List Vec2
  | a, [] => (a, [], [])
  | a, b :: rest =>
    match collider a b with
    | some c =>
      let p := apply_impulse sq a b c restitution
      let a2 := apply_correction collider CORRECTIVE_FRAMES p.1 p.2 c
      let b2 := apply_correction collider CORRECTIVE_FRAMES p.2 a2 c
      match processPairs collider sq restitution a2 rest with
      | (aF, restF, pts) => (aF, b2 :: restF, c.point :: pts)
    | none =>
      match processPairs collider sq restitution a rest with
      | (aF, restF, pts) => (aF, b :: restF, pts)

/-- Outer loop of the collision phase; the iteration count is the body
count taken once at entry, matching the source range over the initial
length (pair processing preserves the length). -/
def collisionLoop (collider : BodyM → BodyM → Option Collision2)
    (sq : ℚ → ℚ) (restitution : ℚ) : Nat → List BodyM → List BodyM × List Vec2
  | 0, bodies => (bodies, [])
  | _ + 1, [] => ([], [])
  | fuel + 1, a :: rest =>
    match processPairs collider sq restitution a rest with
    | (a1, rest1, pts) =>
      match collisionLoop collider sq restitution fuel rest1 with
      | (rest2, pts2) => (a1 :: rest2, pts ++ pts2)

/-- The collision phase over all unordered pairs. -/
def collisionPhase (collider : BodyM → BodyM → Option Collision2)
    (sq : ℚ → ℚ) (restitution : ℚ) (bodies : List BodyM) :
    List BodyM × List Vec2 :=
  collisionLoop collider sq restitution bodies.length bodies

/-- Engine::tick: snapshot the bodies, integrate every body against the
snapshot, then run the collision phase; an integration failure aborts
before the collision phase and leaves the partially updated body list
in place.  The collider is the boxed capability of the engine and
enters as a function parameter; sq is the native square root used by
the impulse response. -/
def tickM (collider : BodyM → BodyM → Option Collision2) (sq : ℚ → ℚ)
    (env : Environment) (gas : Nat) (deltaT restitution : ℚ)
    (bodies : List BodyM) : List BodyM × Except Err (List Vec2) :=
  match integrateAll env gas deltaT bodies bodies with
  | (bs, some e) => (bs, .error e)
  | (bs, none) =>
    match collisionPhase collider sq restitution bs with
    | (bs2, pts) => (bs2, .ok pts)

/-- Repeated ticks as the host loop performs them (body list component;
the scenarios that use this never fail). -/
def runTicks (collider : BodyM → BodyM → Option Collision2) (sq : ℚ → ℚ)
    (env : Environment) (gas : Nat) (deltaT restitution : ℚ) :
    Nat → List BodyM → List BodyM
  | 0, bodies => bodies
  | n + 1, bodies =>
    (tickM collider sq env gas deltaT restitution
      (runTicks collider sq env gas deltaT restitution n bodies)).1

end IterPhys

namespace IterPhys

/-! The 2D polygon collider (src/engine/src/lib.rs, mod collide). -/

/-- Value of the raw quotient y over x of a direction vector, as IEEE
division produces it: a finite quotient, a signed infinity for a
vertical vector, or NaN for the zero vector. -/
inductive Slp
  | fin (q : ℚ)
  | pinf
  | ninf
  | nan
  deriving DecidableEq

/-- The slope helper of Collide2D::intersect.  Finite quotients are
exact here where the source rounds; for a zero first component the sign
of the second selects the infinity, and the zero vector gives NaN. -/
def slope (v : Vec2) : Slp :=
  if v.1 ≠ 0 then .fin (v.2 / v.1)
  else if 0 < v.2 then .pinf
  else if v.2 < 0 then .ninf
  else .nan

end IterPhys

namespace IterPhys

/-! Concrete fixtures used by the witnesses and counterexamples. -/

/-- Identity stand-in for the native square root in witnesses whose
claims do not depend on its value. -/
def sqId : ℚ → ℚ := fun q => q

/-- A unit-mass, unit-inertia square body for the impulse fixtures. -/
def fixBody (name : String) (x y vx vy : ℚ) : BodyM :=
  ⟨name, .rect 2 2, ⟨[x, y], [vx, vy], [0, 0]⟩, ⟨[0], [0], [0]⟩, 1, 1⟩

/-- Head-on contact fixture for the impulse formula. -/
def fixColl : Collision2 := ⟨(0, 1), (0, 1), 0⟩

/-- Environment of one equation defining the displacement of body B:
s_B = 5 hati. -/
def envDisp : Environment :=
  buildEnv [.comparison (.var "s_B") (.arithmetic .multi (.number 5) (.var "hati"))]
    builtinFunctions builtinConstants

/-- Environment of one equation defining the acceleration of body B:
a_B = 2 hati. -/
def envAccel : Environment :=
  buildEnv [.comparison (.var "a_B") (.arithmetic .multi (.number 2) (.var "hati"))]
    builtinFunctions builtinConstants

/-- Environment defining no equations at all, with the built-in tables
in place. -/
def envEmpty : Environment := buildEnv [] builtinFunctions builtinConstants

/-- Environment whose single angular equation calls the one-argument
built-in sine with two arguments: q_B = sin(1, 2). -/
def envBadCall : Environment :=
  buildEnv [.comparison (.var "q_B") (.function "sin" [.number 1, .number 2])]
    builtinFunctions builtinConstants

/-- A body at rest at the origin named B. -/
def bodyB0 : BodyM := ⟨"B", .rect 2 2, ⟨[0, 0], [0, 0], [0, 0]⟩, ⟨[0], [0], [0]⟩, 1, 1⟩

end IterPhys

namespace IterPhys

/-- Environment defining one two-parameter user function f(x, y) = x
and nothing else. -/
def envFnDef : Environment :=
  buildEnv [.comparison (.function "f" [.var "x", .var "y"]) (.var "x")] [] []

/-- Collider fixture that reports one fixed contact exactly at the
post-integration positions of the two-body counterexample engine and
nothing anywhere else, so the corrective push-out terminates at once. -/
def collOnce : BodyM → BodyM → Option Collision2 := fun a b =>
  if vec2Of a.linear.displacement = ((0 : ℚ), 1)
      ∧ vec2Of b.linear.displacement = ((0 : ℚ), 2) then
    some ⟨(0, 3 / 2), (0, 1), 1⟩
  else none

/-- Collider fixture that never reports a contact. -/
def collNone : BodyM → BodyM → Option Collision2 := fun _ _ => none

/-- A node the build loop keeps as an equation: a comparison that is
not a function definition (its left side is not a function call with
all-variable arguments). -/
def isKeptEqn (x : Node) : Bool :=
  match x with
  | .comparison left _ =>
    match left with
    | .function _ args => (paramsOf args).isNone
    | _ => true
  | _ => false

/-- The function table the build loop accumulates: exactly the function
definitions insert, in source order. -/
def expectedFns (fns : List (String × EFunction)) : List Node → List (String × EFunction)
  | [] => fns
  | x :: rest =>
    match x with
    | .comparison (.function name args) right =>
      match paramsOf args with
      | some params => expectedFns (finsert fns name (.mathematical right params)) rest
      | none => expectedFns fns rest
    | _ => expectedFns fns rest

/-- The six probed forms of one body name, in priority order per
motion kind. -/
def probeForms (name : String) : List String :=
  ["s_" ++ name, "v_" ++ name, "a_" ++ name,
   "q_" ++ name, "omega_" ++ name, "alpha_" ++ name]

/-- Superset of the keys the override map of a probe can contain for
the given basis pair: the basis names and, per body, the axis
displacement and velocity scalars of both kinds and the two
properties.  It depends only on the body names. -/
def overrideKeyUniverse (bases extraBases : List Basis) (bodies : List BodyM) :
    List String :=
  bases.map (fun bs => bs.name)
  ++ bodies.flatMap (fun x =>
      bases.map (fun bs => bs.axis ++ "_" ++ x.name)
      ++ bases.map (fun bs => "v_" ++ bs.axis ++ "_" ++ x.name)
      ++ extraBases.map (fun bs => bs.axis ++ "_" ++ x.name)
      ++ extraBases.map (fun bs => "v_" ++ bs.axis ++ "_" ++ x.name)
      ++ ["m_" ++ x.name, "I_" ++ x.name])

/-- Key superset across both probe kinds of a tick. -/
def tickKeyUniverse (bodies : List BodyM) : List String :=
  overrideKeyUniverse LINEAR_BASES ANGULAR_BASES bodies
  ++ overrideKeyUniverse ANGULAR_BASES LINEAR_BASES bodies

/-- Inertial continuation of one body: displacement advances by
velocity times delta t in both motion kinds, velocity and acceleration
stay. -/
def inertialBody (deltaT : ℚ) (b : BodyM) : BodyM :=
  let sLin := lplus b.linear.displacement (lscale deltaT b.linear.velocity)
  let sAng := lplus b.angular.displacement (lscale deltaT b.angular.velocity)
  { b with
    linear := { b.linear with displacement := sLin },
    angular := { b.angular with displacement := sAng } }

/-- C3: calculate_impulse returns 0 when the normal component of the
relative contact velocity is positive (separating) and also when the
denominator is 0; otherwise it returns minus (1 plus e) times that
component divided by the denominator, where the denominator is the
inverse-mass sum plus the two angular terms, each inverse mass term
vanishing for a nonpositive mass and each angular term for a
nonpositive moment of inertia. -/
theorem c3_calculate_impulse (sq : ℚ → ℚ) (a b : BodyM) (c : Collision2) (e : ℚ) :
    (0 < vRelN sq a b c → calculate_impulse sq a b c e = 0)
    ∧ (impulseDenom sq a b c = 0 → calculate_impulse sq a b c e = 0)
    ∧ (vRelN sq a b c ≤ 0 → impulseDenom sq a b c ≠ 0 →
        calculate_impulse sq a b c e
          = (-(1 + e) * vRelN sq a b c) /
              (invMassSum a b + angTerm sq a c + angTerm sq b c))
    ∧ (a.mass ≤ 0 →
        invMassSum a b = if 0 < b.mass then 1 / b.mass else 0)
    ∧ (b.mass ≤ 0 →
        invMassSum a b = if 0 < a.mass then 1 / a.mass else 0)
    ∧ (a.moi ≤ 0 → angTerm sq a c = 0)
    ∧ (b.moi ≤ 0 → angTerm sq b c = 0) := by
  refine ⟨?_, ?_, ?_, ?_, ?_, ?_, ?_⟩
  · intro h
    unfold calculate_impulse
    rw [if_pos h]
  · intro h
    unfold calculate_impulse
    split_ifs <;> simp_all
  · intro h1 h2
    unfold calculate_impulse
    rw [if_neg (not_lt.mpr h1), if_neg h2]
    rfl
  · intro h
    unfold invMassSum
    rw [if_neg (not_lt.mpr h), zero_add]
  · intro h
    unfold invMassSum
    rw [if_neg (not_lt.mpr h), add_zero]
  · intro h
    unfold angTerm
    rw [if_neg (not_lt.mpr h)]
  · intro h
    unfold angTerm
    rw [if_neg (not_lt.mpr h)]

/-- Witness for C3 at a concrete approaching contact: two unit-mass
squares, restitution one, closing speed two, impulse two. -/
theorem c3_calculate_impulse_witness :
    vRelN sqId (fixBody "A" 0 0 0 1) (fixBody "B" 0 2 0 (-1)) fixColl ≤ 0
    ∧ impulseDenom sqId (fixBody "A" 0 0 0 1) (fixBody "B" 0 2 0 (-1)) fixColl ≠ 0
    ∧ calculate_impulse sqId (fixBody "A" 0 0 0 1) (fixBody "B" 0 2 0 (-1)) fixColl 1 = 2 := by
  have hv : vRelN sqId (fixBody "A" 0 0 0 1) (fixBody "B" 0 2 0 (-1)) fixColl = -2 := by
    norm_num [vRelN, sqId, fixBody, fixColl, pointVelocity, penVec, vec2Of, scal1Of,
      vplus, vscale, vdot, vunit, vmag, cross_both]
  have hd : impulseDenom sqId (fixBody "A" 0 0 0 1) (fixBody "B" 0 2 0 (-1)) fixColl = 2 := by
    norm_num [impulseDenom, sqId, fixBody, fixColl, invMassSum, angTerm, penVec,
      vec2Of, vplus, vscale, vunit, vmag, cross_linear]
  have h := c3_calculate_impulse sqId (fixBody "A" 0 0 0 1) (fixBody "B" 0 2 0 (-1)) fixColl 1
  refine ⟨by rw [hv]; norm_num, by rw [hd]; norm_num, ?_⟩
  have h3 := h.2.2.1 (by rw [hv]; norm_num) (by rw [hd]; norm_num)
  rw [h3]
  have : invMassSum (fixBody "A" 0 0 0 1) (fixBody "B" 0 2 0 (-1))
      + angTerm sqId (fixBody "A" 0 0 0 1) fixColl
      + angTerm sqId (fixBody "B" 0 2 0 (-1)) fixColl = 2 := by
    have := hd
    unfold impulseDenom at this
    exact this
  rw [this, hv]
  norm_num

end IterPhys

namespace IterPhys

/-- C5: find_root runs at most MAX_DEPTH equal to 10000 Newton
iterations (the loop enters with exactly that budget and exhaustion
fails with RootFindingDepthExceeded); an iteration whose sampled secant
slope vanishes can never converge afterwards and ends in the same
RootFindingDepthExceeded failure; an iteration whose secant step lands
within EPSILON equal to one hundred-thousandth of the current point
memoizes the next point in the shared memo under the target name and
returns it, and otherwise the loop continues at the next point with
one unit of budget spent. -/
theorem c5_find_root (env : Environment) (gas : Nat) (node : Node) (target : String)
    (stack : List Nat) :
    MAX_DEPTH = 10000 ∧ EPSILON = 1 / 100000
    ∧ (∀ guess memo, find_root env gas node target stack guess memo
        = findRootLoop env gas node target stack MAX_DEPTH guess memo)
    ∧ (∀ last memo, findRootLoop env gas node target stack 0 last memo
        = (.error .rootFindingDepthExceeded, memo))
    ∧ (∀ fuel last memo xI m1 xE m2,
        evaluate env gas node stack [(target, last)] memo = (.ok xI, m1) →
        evaluate env gas node stack [(target, last + EPSILON)] m1 = (.ok xE, m2) →
        ((xE - xI) / EPSILON = 0 →
          findRootLoop env (gas + 1) node target stack (fuel + 1) last memo
            = (.error .rootFindingDepthExceeded, m2))
        ∧ ((xE - xI) / EPSILON ≠ 0 →
          (qabs (last - (last - xI / ((xE - xI) / EPSILON))) < EPSILON →
            findRootLoop env (gas + 1) node target stack (fuel + 1) last memo
              = (.ok (last - xI / ((xE - xI) / EPSILON)),
                 minsert m2 target (last - xI / ((xE - xI) / EPSILON))))
          ∧ (¬ qabs (last - (last - xI / ((xE - xI) / EPSILON))) < EPSILON →
            findRootLoop env (gas + 1) node target stack (fuel + 1) last memo
              = findRootLoop env gas node target stack fuel
                  (last - xI / ((xE - xI) / EPSILON)) m2))) := by
  refine ⟨rfl, rfl, fun guess memo => rfl, fun last memo => by simp [findRootLoop], ?_⟩
  intro fuel last memo xI m1 xE m2 h1 h2
  refine ⟨?_, fun hs => ⟨?_, ?_⟩⟩
  · intro hs
    simp only [findRootLoop, h1, h2]
    rw [if_pos hs]
  · intro hc
    simp only [findRootLoop, h1, h2]
    rw [if_neg hs, if_pos hc]
  · intro hc
    simp only [findRootLoop, h1, h2]
    rw [if_neg hs, if_neg hc]

/-- Witness for C5: solving x minus five from guess zero, the first
secant step (slope exactly one) jumps to five without converging, the
second converges there, and the root is memoized under the target
name. -/
theorem c5_find_root_witness :
    findRootLoop envEmpty 4 (.arithmetic .sub (.var "x") (.number 5)) "x" [] 2 0 []
      = (.ok 5, [("x", 5)]) := by
  have h1a : evaluate envEmpty 3 (.arithmetic .sub (.var "x") (.number 5)) []
      [("x", (0 : ℚ))] [] = (.ok (-5), []) := by
    norm_num +decide [evaluate, mlookup, applyOp]
  have h2a : evaluate envEmpty 3 (.arithmetic .sub (.var "x") (.number 5)) []
      [("x", (0 : ℚ) + EPSILON)] [] = (.ok (EPSILON - 5), []) := by
    norm_num +decide [evaluate, mlookup, applyOp, EPSILON]
  have h1b : evaluate envEmpty 2 (.arithmetic .sub (.var "x") (.number 5)) []
      [("x", (5 : ℚ))] [] = (.ok 0, []) := by
    norm_num +decide [evaluate, mlookup, applyOp]
  have h2b : evaluate envEmpty 2 (.arithmetic .sub (.var "x") (.number 5)) []
      [("x", (5 : ℚ) + EPSILON)] [] = (.ok EPSILON, []) := by
    norm_num +decide [evaluate, mlookup, applyOp, EPSILON]
  have hstep := (((c5_find_root envEmpty 3 (.arithmetic .sub (.var "x") (.number 5))
    "x" []).2.2.2.2 1 0 [] (-5) [] (EPSILON - 5) [] h1a h2a).2
      (by norm_num [EPSILON])).2 (by norm_num [qabs, EPSILON])
  have hnext : (0 : ℚ) - (-5) / ((EPSILON - 5 - (-5)) / EPSILON) = 5 := by
    norm_num [EPSILON]
  rw [hnext] at hstep
  have hconv := (((c5_find_root envEmpty 2 (.arithmetic .sub (.var "x") (.number 5))
    "x" []).2.2.2.2 0 5 [] 0 [] EPSILON [] h1b h2b).2
      (by norm_num [EPSILON])).1 (by norm_num [qabs, EPSILON])
  have hroot : (5 : ℚ) - 0 / ((EPSILON - 0) / EPSILON) = 5 := by
    norm_num [EPSILON]
  rw [hroot] at hconv
  rw [hstep, hconv]
  norm_num [minsert]

end IterPhys

namespace IterPhys

/-- Number-literal argument lists always evaluate to their values and
leave the memo untouched, given one unit of gas per element plus one. -/
theorem evalArgs_numbers (env : Environment) (stack : List Nat) :
    ∀ (vals : List ℚ) (g : Nat) (locals memo : MapQ),
      evalArgs env (g + vals.length + 1) (vals.map .number) stack locals memo
        = (.ok vals, memo) := by
  intro vals
  induction vals with
  | nil => intro g locals memo; simp [evalArgs]
  | cons v rest ih =>
    intro g locals memo
    have harith : g + (rest.length + 1) + 1 = ((g + 1) + rest.length + 1) := by omega
    simp only [List.map, List.length_cons, harith]
    have hev : evaluate env ((g + 1) + rest.length) (.number v) stack locals memo
        = (.ok v, memo) := by
      have e : (g + 1) + rest.length = (g + rest.length) + 1 := by omega
      rw [e]
      simp [evaluate]
    have h2 : evalArgs env ((g + 1) + rest.length) (List.map Node.number rest)
        stack locals memo = (.ok rest, memo) := by
      have e : (g + 1) + rest.length = g + rest.length + 1 := by omega
      rw [e]
      exact ih g locals memo
    simp only [evalArgs, hev, h2]

/-- C6: a call of a known function with the wrong number of arguments
fails with WrongNumberOfArguments carrying the expected arity of the
table entry (the arity field of a built-in, the parameter count of a
user-defined function) and the found argument count; a call of an
unknown function name fails with UnsatisfiedFunction. -/
theorem c6_arity (env : Environment) (gas : Nat) (stack : List Nat)
    (locals memo : MapQ) (name : String) (vals : List ℚ) :
    (∀ f k, flookup env.functions name = some (.baked f k) → vals.length ≠ k →
      evaluate env (gas + vals.length + 2) (.function name (vals.map .number))
          stack locals memo
        = (.error (.wrongNumberOfArguments name k vals.length), memo))
    ∧ (∀ fnode params,
        flookup env.functions name = some (.mathematical fnode params) →
        vals.length ≠ params.length →
        evaluate env (gas + vals.length + 2) (.function name (vals.map .number))
            stack locals memo
          = (.error (.wrongNumberOfArguments name params.length vals.length), memo))
    ∧ (flookup env.functions name = none → ∀ args,
        evaluate env (gas + 1) (.function name args) stack locals memo
          = (.error (.unsatisfiedFunction name), memo)) := by
  refine ⟨?_, ?_, ?_⟩
  · intro f k hf hk
    have hg : gas + vals.length + 2 = (gas + vals.length + 1) + 1 := by omega
    rw [hg]
    simp only [evaluate, hf]
    rw [evalArgs_numbers env stack vals gas locals memo]
    simp [hk]
  · intro fnode params hf hk
    have hg : gas + vals.length + 2 = (gas + vals.length + 1) + 1 := by omega
    rw [hg]
    simp only [evaluate, hf]
    rw [evalArgs_numbers env stack vals gas locals memo]
    simp [hk]
  · intro hf args
    simp [evaluate, hf]

/-- Witness for C6: the one-argument built-in sine called with two
arguments, the two-parameter user function f called with one argument,
and a call of an unknown name. -/
theorem c6_arity_witness :
    evaluate envEmpty 4 (.function "sin" [.number 1, .number 2]) [] [] []
      = (.error (.wrongNumberOfArguments "sin" 1 2), [])
    ∧ evaluate envFnDef 3 (.function "f" [.number 3]) [] [] []
      = (.error (.wrongNumberOfArguments "f" 2 1), [])
    ∧ evaluate envEmpty 1 (.function "foo" [.number 1]) [] [] []
      = (.error (.unsatisfiedFunction "foo"), []) := by
  have hsin : flookup envEmpty.functions "sin" = some (.baked (fun _ => 0) 1) := by
    norm_num +decide [envEmpty, buildEnv, builtinFunctions, flookup]
  have hf : flookup envFnDef.functions "f"
      = some (.mathematical (.var "x") ["x", "y"]) := by
    norm_num +decide [envFnDef, buildEnv, buildStep, paramsOf, finsert, flookup]
  have hfoo : flookup envEmpty.functions "foo" = none := by
    norm_num +decide [envEmpty, buildEnv, builtinFunctions, flookup]
  refine ⟨?_, ?_, ?_⟩
  · have h := (c6_arity envEmpty 0 [] [] [] "sin" [1, 2]).1 (fun _ => 0) 1 hsin
      (by norm_num)
    simpa using h
  · have h := (c6_arity envFnDef 0 [] [] [] "f" [3]).2.1 (.var "x") ["x", "y"] hf
      (by norm_num)
    simpa using h
  · have h := (c6_arity envEmpty 0 [] [] [] "foo" [1]).2.2 hfoo [.number 1]
    simpa using h

end IterPhys

namespace IterPhys

/-- The build fold, generalized over the id counter and both
accumulators. -/
theorem buildStep_fold (exprs : List Node) :
    ∀ (id : Nat) (eqs : List Equation) (fns : List (String × EFunction)),
      exprs.foldl buildStep (id, eqs, fns)
        = (id + (exprs.filter isKeptEqn).length,
           eqs ++ (List.enumFrom id (exprs.filter isKeptEqn)).map
             (fun p => ⟨p.1, p.2, analyze p.2 []⟩),
           expectedFns fns exprs) := by
  induction exprs with
  | nil => intro id eqs fns; simp [expectedFns]
  | cons x rest ih =>
    intro id eqs fns
    match x with
    | .number n =>
      simp only [List.foldl_cons, buildStep, expectedFns]
      simpa [isKeptEqn] using ih id eqs fns
    | .var v =>
      simp only [List.foldl_cons, buildStep, expectedFns]
      simpa [isKeptEqn] using ih id eqs fns
    | .arithmetic op l r =>
      simp only [List.foldl_cons, buildStep, expectedFns]
      simpa [isKeptEqn] using ih id eqs fns
    | .function nm args =>
      simp only [List.foldl_cons, buildStep, expectedFns]
      simpa [isKeptEqn] using ih id eqs fns
    | .comparison left right =>
      match hl : left with
      | .function nm args =>
        cases hp : paramsOf args with
        | some params =>
          simp only [List.foldl_cons, buildStep, hp, expectedFns]
          simpa [isKeptEqn, hp] using ih id eqs (finsert fns nm (.mathematical right params))
        | none =>
          simp only [List.foldl_cons, buildStep, hp, expectedFns]
          have := ih (id + 1)
            (eqs ++ [⟨id, .comparison (.function nm args) right,
              analyze (.comparison (.function nm args) right) []⟩]) fns
          rw [this]
          simp [isKeptEqn, hp, List.enumFrom, Nat.add_assoc, Nat.add_comm 1]
      | .number n =>
        simp only [List.foldl_cons, buildStep]
        have := ih (id + 1)
          (eqs ++ [⟨id, .comparison (.number n) right,
            analyze (.comparison (.number n) right) []⟩]) fns
        rw [this]
        simp [isKeptEqn, expectedFns, List.enumFrom, Nat.add_assoc, Nat.add_comm 1]
      | .var v =>
        simp only [List.foldl_cons, buildStep]
        have := ih (id + 1)
          (eqs ++ [⟨id, .comparison (.var v) right,
            analyze (.comparison (.var v) right) []⟩]) fns
        rw [this]
        simp [isKeptEqn, expectedFns, List.enumFrom, Nat.add_assoc, Nat.add_comm 1]
      | .arithmetic op l r =>
        simp only [List.foldl_cons, buildStep]
        have := ih (id + 1)
          (eqs ++ [⟨id, .comparison (.arithmetic op l r) right,
            analyze (.comparison (.arithmetic op l r) right) []⟩]) fns
        rw [this]
        simp [isKeptEqn, expectedFns, List.enumFrom, Nat.add_assoc, Nat.add_comm 1]
      | .comparison l2 r2 =>
        simp only [List.foldl_cons, buildStep]
        have := ih (id + 1)
          (eqs ++ [⟨id, .comparison (.comparison l2 r2) right,
            analyze (.comparison (.comparison l2 r2) right) []⟩]) fns
        rw [this]
        simp [isKeptEqn, expectedFns, List.enumFrom, Nat.add_assoc, Nat.add_comm 1]

/-- C9: Environment::build silently discards every parsed expression
whose top level is not a comparison: build succeeds, the discarded
expression is recorded neither as an equation nor as a function, and
the resulting equations are exactly the comparisons that are not
function definitions, in source order, with consecutive ids from zero
and their analyzed dependency sets. -/
theorem c9_build_discards (exprs : List Node) (fns : List (String × EFunction))
    (consts : MapQ) :
    build exprs fns consts = .ok (buildEnv exprs fns consts)
    ∧ (buildEnv exprs fns consts).equations
        = (List.enumFrom 0 (exprs.filter isKeptEqn)).map
            (fun p => ⟨p.1, p.2, analyze p.2 []⟩)
    ∧ (buildEnv exprs fns consts).functions = expectedFns fns exprs
    ∧ (buildEnv exprs fns consts).constants = consts := by
  refine ⟨rfl, ?_, ?_, ?_⟩ <;>
    simp [buildEnv, buildStep_fold exprs 0 [] fns]

end IterPhys

namespace IterPhys

/-- A letter is not a digit. -/
theorem isCharacter_isDigit_false (c : Char) (h : isCharacter c = true) :
    isDigit c = false := by
  simp only [isCharacter, Bool.or_eq_true, Bool.and_eq_true, decide_eq_true_eq] at h
  apply Bool.eq_false_iff.mpr
  intro hd
  simp only [isDigit, Bool.and_eq_true, decide_eq_true_eq] at hd
  rcases h with h | h
  · exact absurd (le_trans h.1 hd.2) (by decide)
  · exact absurd (le_trans h.1 hd.2) (by decide)

/-- A letter is not the space character. -/
theorem isCharacter_ne_space (c : Char) (h : isCharacter c = true) : c ≠ ' ' := by
  rintro rfl
  exact absurd h (by decide)

/-- C8 (amended): lexing a variable of the form symbol underscore name,
with the symbol a nonempty string of letters and the name made of
letters and underscores only, produces the single identifier token
equal to the whole string. -/
theorem c8_lex_identifier (sym name : List Char) (hs : sym ≠ [])
    (hsc : ∀ c ∈ sym, isCharacter c = true)
    (hn : ∀ c ∈ name, isCharacter c = true ∨ c = '_') :
    lexString ⟨sym ++ '_' :: name⟩ = .ok [.text ⟨sym ++ '_' :: name⟩] := by
  obtain ⟨c0, symRest, rfl⟩ : ∃ c0 rest, sym = c0 :: rest := by
    cases sym with
    | nil => exact absurd rfl hs
    | cons a l => exact ⟨a, l, rfl⟩
  have hc0 : isCharacter c0 = true := hsc c0 (by simp)
  have htail : ∀ c ∈ symRest ++ '_' :: name, (isCharacter c || c = '_') = true := by
    intro c hc
    rcases List.mem_append.mp hc with h | h
    · simp [hsc c (by simp [h])]
    · rcases List.mem_cons.mp h with h | h
      · simp [h]
      · rcases hn c h with h2 | h2 <;> simp [h2]
  have hdropSp : (c0 :: (symRest ++ '_' :: name)).dropWhile (fun c => c = ' ') =
      c0 :: (symRest ++ '_' :: name) := by
    simp [List.dropWhile, isCharacter_ne_space c0 hc0]
  have htake : (symRest ++ '_' :: name).takeWhile (fun x => isCharacter x || x = '_')
      = symRest ++ '_' :: name := List.takeWhile_eq_self_iff.mpr htail
  have hdrop : (symRest ++ '_' :: name).dropWhile (fun x => isCharacter x || x = '_')
      = [] := List.dropWhile_eq_nil_iff.mpr (fun c hc => htail c hc)
  have hexec : exec (c0 :: (symRest ++ '_' :: name))
      = .ok (some (.text ⟨c0 :: (symRest ++ '_' :: name)⟩, [])) := by
    rw [exec, hdropSp]
    simp [isCharacter_isDigit_false c0 hc0, hc0, htake, hdrop]
  have hlen : (String.mk (c0 :: (symRest ++ '_' :: name))).length
      = (symRest ++ '_' :: name).length + 1 := by
    simp [String.length]
  have hlast : lexAll ((symRest ++ '_' :: name).length + 1) [] = .ok [] := by
    simp only [lexAll]
    simp [exec]
  have hgoal : lexString ⟨c0 :: (symRest ++ '_' :: name)⟩
      = .ok [.text ⟨c0 :: (symRest ++ '_' :: name)⟩] := by
    show lexAll ((String.mk (c0 :: (symRest ++ '_' :: name))).length + 1)
      (c0 :: (symRest ++ '_' :: name)) = _
    rw [hlen]
    simp only [lexAll, hexec]
    simp [exec]
  simpa [List.cons_append] using hgoal

/-- Counterexample for C8 as frozen: B2 is a body name made of letters
and digits with no leading digit, yet lexing x_B2 yields an identifier
token cut short at the digit followed by a number token, not one
identifier equal to the whole string. -/
theorem c8_counterexample :
    (∀ c ∈ "B2".data, isCharacter c = true ∨ isDigit c = true ∨ c = '_')
    ∧ isDigit 'B' = false
    ∧ lexString "x_B2" = .ok [.text "x_B", .number 2]
    ∧ lexString "x_B2" ≠ .ok [.text "x_B2"] := by
  have h2 : lexString "x_B2" = .ok [.text "x_B", .number 2] := by
    norm_num +decide [lexString, lexAll, exec, parseNumber, digitsVal, isDigit,
      isCharacter, List.dropWhile, List.takeWhile,
      show '2'.toNat - '0'.toNat = 2 from by decide]
  refine ⟨by decide, by decide, h2, ?_⟩
  intro h
  rw [h2] at h
  simp at h

/-- Witness for the amended C8 at a concrete symbol and name. -/
theorem c8_lex_identifier_witness :
    lexString "v_hatj_Body" = .ok [.text "v_hatj_Body"] := by
  have h := c8_lex_identifier "v".data "hatj_Body".data (by decide) (by decide)
    (by decide)
  exact h

end IterPhys

namespace IterPhys

set_option maxRecDepth 100000 in
/-- C1 (code divergence): with the displacement of body B defined by
the equation s_B equal to five hati and delta t one half, the probe
succeeds with the vector five comma zero and the new displacement is
that value, but the stored velocity is the displacement delta
multiplied by delta t, five halves, not the delta divided by delta t,
ten, as the claim (and plain kinematics, and the spec pendulum
scenario) requires. -/
theorem c1_displacement_velocity_bug :
    update_state envDisp 60 (1 / 2) [bodyB0] "s" "v" "a" "B"
        LINEAR_BASES (fun x => x.linear) ANGULAR_BASES (fun x => x.angular)
        2 bodyB0.linear false
      = (⟨[5, 0], [5 / 2, 0], [0, 0]⟩, none)
    ∧ ([5 / 2, 0] : List ℚ) ≠ [(5 - 0) / (1 / 2), 0] := by
  constructor
  · norm_num +decide [update_state, eval_impl, probeLoop, overridesKvs, insertAll,
      minsert, envEvaluate, evaluate, resolveCandidates, findRootLoop, evalArgs,
      mlookup, flookup, firstSuccess, firstUnsatisfied, applyOp, qpow, qabs,
      EPSILON, MAX_DEPTH, envDisp, buildEnv, buildStep, analyze, analyze.analyzeList,
      depsInsert, paramsOf, builtinFunctions, builtinConstants, LINEAR_BASES,
      ANGULAR_BASES, bodyB0, colNew, lplus, lscale, List.zipWith]
  · intro h
    have := congrArg (fun l => l.getD 0 0) h
    norm_num at this

end IterPhys

namespace IterPhys

set_option maxRecDepth 100000 in
/-- C2 (code divergence): with the acceleration of body B defined by
the equation a_B equal to two hati, delta t one, and the body at rest,
the leapfrog velocity update is correct (new velocity one), but the
displacement update then reads the just-overwritten velocity instead of
the old one: the code stores displacement two where the claim formula
old s plus old v delta t plus half a delta t squared gives one.  The
repository test of the integration helpers applies them in the claimed
order, so the tick macro ordering is the slip. -/
theorem c2_leapfrog_order_bug :
    update_state envAccel 60 1 [bodyB0] "s" "v" "a" "B"
        LINEAR_BASES (fun x => x.linear) ANGULAR_BASES (fun x => x.angular)
        2 bodyB0.linear false
      = (⟨[2, 0], [1, 0], [2, 0]⟩, none)
    ∧ ([2, 0] : List ℚ) ≠ [0 + 0 * 1 + 1 / 2 * 2 * 1 ^ 2, 0] := by
  constructor
  · norm_num +decide [update_state, eval_impl, probeLoop, overridesKvs, insertAll,
      minsert, envEvaluate, evaluate, resolveCandidates, findRootLoop, evalArgs,
      mlookup, flookup, firstSuccess, firstUnsatisfied, applyOp, qpow, qabs,
      EPSILON, MAX_DEPTH, envAccel, buildEnv, buildStep, analyze, analyze.analyzeList,
      depsInsert, paramsOf, builtinFunctions, builtinConstants, LINEAR_BASES,
      ANGULAR_BASES, bodyB0, colNew, lplus, lscale, List.zipWith,
      leapfrog_velocity, leapfrog_displacement]
  · intro h
    have := congrArg (fun l => l.getD 0 0) h
    norm_num at this

end IterPhys

namespace IterPhys

/-- Shape of the integration loop around the first failing body:
bodies before it keep their new states, the failing body keeps its
partial update, bodies after it are untouched, and the error is
reported. -/
theorem integrateAll_halt (env : Environment) (gas : Nat) (deltaT : ℚ)
    (prev : List BodyM) :
    ∀ (bodies : List BodyM) (k : Nat) (err : Err) (hk : k < bodies.length),
      (∀ i (hik : i < k),
        (updateBody env gas deltaT prev (bodies.get ⟨i, Nat.lt_trans hik hk⟩)).2 = none) →
      (updateBody env gas deltaT prev (bodies.get ⟨k, hk⟩)).2 = some err →
      integrateAll env gas deltaT prev bodies
        = ((bodies.take k).map (fun b => (updateBody env gas deltaT prev b).1)
            ++ (updateBody env gas deltaT prev (bodies.get ⟨k, hk⟩)).1
              :: bodies.drop (k + 1),
           some err) := by
  intro bodies
  induction bodies with
  | nil => intro k err hk; exact absurd hk (by simp)
  | cons b rest ih =>
    intro k err hk hpre hfail
    cases k with
    | zero =>
      simp only [List.get] at hfail
      cases hu : updateBody env gas deltaT prev b with
      | mk b1 eopt =>
        have : eopt = some err := by rw [hu] at hfail; exact hfail
        subst this
        simp only [integrateAll, hu, List.take, List.map, List.nil_append,
          List.drop, List.get, hu]
    | succ k =>
      have h0 : (updateBody env gas deltaT prev b).2 = none := by
        have := hpre 0 (Nat.succ_pos k)
        simpa using this
      cases hu : updateBody env gas deltaT prev b with
      | mk b1 eopt =>
        have : eopt = none := by rw [hu] at h0; exact h0
        subst this
        have hk2 : k < rest.length := by simpa using hk
        have hpre2 : ∀ i (hik : i < k),
            (updateBody env gas deltaT prev (rest.get ⟨i, Nat.lt_trans hik hk2⟩)).2
              = none := by
          intro i hik
          have := hpre (i + 1) (Nat.succ_lt_succ hik)
          simpa using this
        have hfail2 : (updateBody env gas deltaT prev (rest.get ⟨k, hk2⟩)).2
            = some err := by
          simpa using hfail
        have := ih k err hk2 hpre2 hfail2
        simp only [integrateAll, hu, this, List.take, List.map, List.cons_append,
          List.drop]
        simp [hu]

/-- C10: tick is not atomic on error.  If integrating body k fails,
tick reports the error and skips the collision phase, but every body
processed before k keeps its already-integrated state, body k keeps
its partial update, and nothing is rolled back; in particular when the
linear update of body k succeeded and its angular update failed, body k
keeps the new linear state. -/
theorem c10_tick_not_atomic (collider : BodyM → BodyM → Option Collision2)
    (sq : ℚ → ℚ) (env : Environment) (gas : Nat) (deltaT e : ℚ)
    (bodies : List BodyM) (k : Nat) (err : Err) (hk : k < bodies.length)
    (hpre : ∀ i (hik : i < k),
      (updateBody env gas deltaT bodies (bodies.get ⟨i, Nat.lt_trans hik hk⟩)).2 = none)
    (hfail : (updateBody env gas deltaT bodies (bodies.get ⟨k, hk⟩)).2 = some err) :
    tickM collider sq env gas deltaT e bodies
      = ((bodies.take k).map (fun b => (updateBody env gas deltaT bodies b).1)
          ++ (updateBody env gas deltaT bodies (bodies.get ⟨k, hk⟩)).1
            :: bodies.drop (k + 1),
         .error err)
    ∧ (∀ (b : BodyM) (lin ang : KState) (e2 : Err),
        update_state env gas deltaT bodies "s" "v" "a" b.name
            LINEAR_BASES (fun x => x.linear) ANGULAR_BASES (fun x => x.angular)
            2 b.linear false = (lin, none) →
        update_state env gas deltaT bodies "q" "omega" "alpha" b.name
            ANGULAR_BASES (fun x => x.angular) LINEAR_BASES (fun x => x.linear)
            1 b.angular false = (ang, some e2) →
        updateBody env gas deltaT bodies b
          = ({ b with linear := lin, angular := ang }, some e2)) := by
  constructor
  · unfold tickM
    rw [integrateAll_halt env gas deltaT bodies bodies k err hk hpre hfail]
  · intro b lin ang e2 h1 h2
    unfold updateBody
    rw [h1]
    simp only []
    have : ({ b with linear := lin } : BodyM).angular = b.angular := rfl
    have hname : ({ b with linear := lin } : BodyM).name = b.name := rfl
    rw [this, hname, h2]

end IterPhys

namespace IterPhys

set_option maxRecDepth 100000 in
/-- Witness for C10: two bodies where the second has a fatal angular
equation (q_B calls sine with two arguments).  One tick integrates body
A inertially and keeps that state, integrates the linear part of body B
inertially and keeps it, fails on the angular probe of body B, returns
the arity error, and never reaches the collision phase. -/
theorem c10_tick_not_atomic_witness :
    tickM collNone sqId envBadCall 60 1 1 [fixBody "A" 0 0 1 0, fixBody "B" 5 0 0 1]
      = ([⟨"A", .rect 2 2, ⟨[1, 0], [1, 0], [0, 0]⟩, ⟨[0], [0], [0]⟩, 1, 1⟩,
          ⟨"B", .rect 2 2, ⟨[5, 1], [0, 1], [0, 0]⟩, ⟨[0], [0], [0]⟩, 1, 1⟩],
         .error (.wrongNumberOfArguments "sin" 1 2)) := by
  have hA : updateBody envBadCall 60 1 [fixBody "A" 0 0 1 0, fixBody "B" 5 0 0 1]
      (fixBody "A" 0 0 1 0)
      = (⟨"A", .rect 2 2, ⟨[1, 0], [1, 0], [0, 0]⟩, ⟨[0], [0], [0]⟩, 1, 1⟩, none) := by
    norm_num +decide [updateBody, update_state, eval_impl, probeLoop, overridesKvs,
      insertAll, minsert, envEvaluate, evaluate, resolveCandidates, findRootLoop,
      evalArgs, mlookup, flookup, firstSuccess, firstUnsatisfied, applyOp, qpow,
      qabs, EPSILON, MAX_DEPTH, envBadCall, buildEnv, buildStep, analyze,
      analyze.analyzeList, depsInsert, paramsOf, builtinFunctions, builtinConstants,
      LINEAR_BASES, ANGULAR_BASES, fixBody, colNew, lplus, lscale, List.zipWith]
  have hB : updateBody envBadCall 60 1 [fixBody "A" 0 0 1 0, fixBody "B" 5 0 0 1]
      (fixBody "B" 5 0 0 1)
      = (⟨"B", .rect 2 2, ⟨[5, 1], [0, 1], [0, 0]⟩, ⟨[0], [0], [0]⟩, 1, 1⟩,
         some (.wrongNumberOfArguments "sin" 1 2)) := by
    norm_num +decide [updateBody, update_state, eval_impl, probeLoop, overridesKvs,
      insertAll, minsert, envEvaluate, evaluate, resolveCandidates, findRootLoop,
      evalArgs, mlookup, flookup, firstSuccess, firstUnsatisfied, applyOp, qpow,
      qabs, EPSILON, MAX_DEPTH, envBadCall, buildEnv, buildStep, analyze,
      analyze.analyzeList, depsInsert, paramsOf, builtinFunctions, builtinConstants,
      LINEAR_BASES, ANGULAR_BASES, fixBody, colNew, lplus, lscale, List.zipWith]
  have hk : (1 : Nat) < ([fixBody "A" 0 0 1 0, fixBody "B" 5 0 0 1] : List BodyM).length := by
    norm_num
  have hpre : ∀ i (hik : i < 1),
      (updateBody envBadCall 60 1 [fixBody "A" 0 0 1 0, fixBody "B" 5 0 0 1]
        (([fixBody "A" 0 0 1 0, fixBody "B" 5 0 0 1] : List BodyM).get
          ⟨i, Nat.lt_trans hik hk⟩)).2 = none := by
    intro i hik
    have hi : i = 0 := by omega
    subst hi
    simp only [List.get, hA]
  have hfail : (updateBody envBadCall 60 1 [fixBody "A" 0 0 1 0, fixBody "B" 5 0 0 1]
      (([fixBody "A" 0 0 1 0, fixBody "B" 5 0 0 1] : List BodyM).get ⟨1, hk⟩)).2
      = some (.wrongNumberOfArguments "sin" 1 2) := by
    simp only [List.get, hB]
  have h := (c10_tick_not_atomic collNone sqId envBadCall 60 1 1
    [fixBody "A" 0 0 1 0, fixBody "B" 5 0 0 1] 1
    (.wrongNumberOfArguments "sin" 1 2) hk hpre hfail).1
  rw [h]
  simp [List.get, hA, hB]

end IterPhys

namespace IterPhys

/-- With no equations and no matching constant or override, probing a
variable fails with UnsatisfiedVariable naming it. -/
theorem probe_undefined (env : Environment) (gas : Nat) (f : String) (m : MapQ)
    (hEq : env.equations = []) (hm : mlookup m f = none)
    (hc : mlookup env.constants f = none) :
    evaluate env (gas + 2) (.var f) [] [] m = (.error (.unsatisfiedVariable f), m) := by
  have h2 : gas + 2 = (gas + 1) + 1 := by omega
  rw [h2]
  simp only [evaluate, mlookup, hm, hc, hEq, List.filter_nil]
  simp [resolveCandidates, firstSuccess, firstUnsatisfied]

/-- Lookup failure through a sequence of inserts is key absence in the
inserted entries and the remainder. -/
theorem mlookup_insertAll_none (f : String) :
    ∀ (kvs : List (String × ℚ)) (m : MapQ),
      mlookup (insertAll m kvs) f = none ↔
        f ∉ kvs.map Prod.fst ∧ mlookup m f = none := by
  intro kvs
  induction kvs with
  | nil => intro m; simp [insertAll]
  | cons kv rest ih =>
    intro m
    have hstep : insertAll m (kv :: rest) = insertAll (kv :: m) rest := rfl
    rw [hstep, ih (kv :: m)]
    constructor
    · rintro ⟨h1, h2⟩
      have hk : ¬ kv.1 = f := by
        intro h
        simp [mlookup, h] at h2
      constructor
      · simp only [List.map, List.mem_cons]
        rintro (h | h)
        · exact hk h.symm
        · exact h1 h
      · simpa [mlookup, hk] using h2
    · rintro ⟨h1, h2⟩
      have hk : ¬ kv.1 = f := by
        intro h
        exact h1 (by simp [h])
      refine ⟨fun h => h1 (by simp [h]), ?_⟩
      simp [mlookup, hk, h2]

/-- Every key of the override map lies in the key universe of its
basis pair and bodies. -/
theorem overridesKvs_keys (bases extraBases : List Basis)
    (sel extraSel : BodyM → KState) (bodies : List BodyM) (f : String)
    (hf : f ∈ (overridesKvs bases extraBases sel extraSel bodies).map Prod.fst) :
    f ∈ overrideKeyUniverse bases extraBases bodies := by
  simp only [overridesKvs, overrideKeyUniverse, List.map_append, List.mem_append,
    List.map_map, List.mem_map, List.map_flatMap, List.mem_flatMap] at hf ⊢
  rcases hf with hf | hf
  · left
    rcases hf with ⟨bs, hbs, rfl⟩
    exact ⟨bs, hbs, rfl⟩
  · right
    rcases hf with ⟨x, hx, hf⟩
    refine ⟨x, hx, ?_⟩
    simp only [List.map_append, List.mem_append, List.map_map, List.mem_map,
      Function.comp] at hf
    try simp only [List.mem_append, List.mem_map]
    rcases hf with ((((⟨p, hp, rfl⟩ | ⟨p, hp, rfl⟩) | ⟨p, hp, rfl⟩) | ⟨p, hp, rfl⟩) | hf)
    · exact Or.inl (Or.inl (Or.inl (Or.inl ⟨p.1, (List.of_mem_zip hp).1, rfl⟩)))
    · exact Or.inl (Or.inl (Or.inl (Or.inr ⟨p.1, (List.of_mem_zip hp).1, rfl⟩)))
    · exact Or.inl (Or.inl (Or.inr ⟨p.1, (List.of_mem_zip hp).1, rfl⟩))
    · exact Or.inl (Or.inr ⟨p.1, (List.of_mem_zip hp).1, rfl⟩)
    · right
      rcases (by simpa using hf : "m_" ++ x.name = f ∨ "I_" ++ x.name = f) with h | h
      · simp [h.symm]
      · simp [h.symm]

end IterPhys

namespace IterPhys

/-- The probe loop reports an undefined quantity as soon as its first
basis evaluation fails with the probed form itself. -/
theorem probeLoop_undefined (env : Environment) (gas : Nat) (form : String)
    (base : MapQ) (b : Basis) (rest : List Basis)
    (hEq : env.equations = []) (hc : mlookup env.constants form = none)
    (hb : b.name ≠ form) (hbase : mlookup base form = none) :
    probeLoop env (gas + 2) form base (b :: rest) = .ok none := by
  have hm : mlookup (minsert base b.name 1) form = none := by
    simp [minsert, mlookup, hb, hbase]
  simp only [probeLoop, envEvaluate]
  rw [probe_undefined env gas form (minsert base b.name 1) hEq hm hc]
  simp

/-- eval_impl reports an undefined quantity when the probed form is
neither a constant nor an override key. -/
theorem eval_impl_undefined (env : Environment) (gas : Nat)
    (varSym owner : String) (b : Basis) (rest : List Basis)
    (sel extraSel : BodyM → KState) (extraBases : List Basis)
    (bodies : List BodyM)
    (hEq : env.equations = [])
    (hc : mlookup env.constants (varSym ++ "_" ++ owner) = none)
    (hkey : varSym ++ "_" ++ owner ∉ overrideKeyUniverse (b :: rest) extraBases bodies) :
    eval_impl env (gas + 2) varSym owner (b :: rest) sel extraBases extraSel bodies
      = .ok none := by
  have hbase : mlookup (insertAll [] (overridesKvs (b :: rest) extraBases sel extraSel bodies))
      (varSym ++ "_" ++ owner) = none := by
    rw [mlookup_insertAll_none]
    refine ⟨?_, by simp [mlookup]⟩
    intro hmem
    exact hkey (overridesKvs_keys (b :: rest) extraBases sel extraSel bodies _ hmem)
  have hb : b.name ≠ varSym ++ "_" ++ owner := by
    intro h
    apply hkey
    simp only [overrideKeyUniverse, List.mem_append]
    left
    simp [← h]
  exact probeLoop_undefined env gas (varSym ++ "_" ++ owner) _ b rest hEq hc hb hbase

/-- With every probe undefined, update_state falls through to the
inertial continuation. -/
theorem update_state_inertial (env : Environment) (gas : Nat) (deltaT : ℚ)
    (prev : List BodyM) (dSym vSym aSym owner : String) (b : Basis)
    (rest : List Basis) (sel extraSel : BodyM → KState) (extraBases : List Basis)
    (dof : Nat) (st : KState)
    (hEq : env.equations = [])
    (hall : ∀ s ∈ [dSym, vSym, aSym],
      mlookup env.constants (s ++ "_" ++ owner) = none
      ∧ s ++ "_" ++ owner ∉ overrideKeyUniverse (b :: rest) extraBases prev) :
    update_state env (gas + 2) deltaT prev dSym vSym aSym owner
        (b :: rest) sel extraBases extraSel dof st false
      = ({ st with displacement := lplus st.displacement (lscale deltaT st.velocity) },
         none) := by
  have hd := hall dSym (by simp)
  have hv := hall vSym (by simp)
  have ha := hall aSym (by simp)
  unfold update_state
  rw [eval_impl_undefined env gas dSym owner b rest sel extraSel extraBases prev
    hEq hd.1 hd.2]
  rw [eval_impl_undefined env gas vSym owner b rest sel extraSel extraBases prev
    hEq hv.1 hv.2]
  rw [eval_impl_undefined env gas aSym owner b rest sel extraSel extraBases prev
    hEq ha.1 ha.2]

/-- With no equations and clash-free names, one body integrates
inertially in both motion kinds. -/
theorem updateBody_inertial (env : Environment) (gas : Nat) (deltaT : ℚ)
    (prev : List BodyM) (body : BodyM)
    (hEq : env.equations = [])
    (hforms : ∀ f ∈ probeForms body.name,
      f ∉ tickKeyUniverse prev ∧ mlookup env.constants f = none) :
    updateBody env (gas + 2) deltaT prev body = (inertialBody deltaT body, none) := by
  have hallLin : ∀ s ∈ ["s", "v", "a"],
      mlookup env.constants (s ++ "_" ++ body.name) = none
      ∧ s ++ "_" ++ body.name
          ∉ overrideKeyUniverse LINEAR_BASES ANGULAR_BASES prev := by
    intro s hs
    have hpf : s ++ "_" ++ body.name ∈ probeForms body.name := by
      fin_cases hs <;> simp [probeForms]
    have h2 := hforms _ hpf
    refine ⟨h2.2, ?_⟩
    intro hmem
    exact h2.1 (by simp [tickKeyUniverse, hmem])
  have hallAng : ∀ s ∈ ["q", "omega", "alpha"],
      mlookup env.constants (s ++ "_" ++ body.name) = none
      ∧ s ++ "_" ++ body.name
          ∉ overrideKeyUniverse ANGULAR_BASES LINEAR_BASES prev := by
    intro s hs
    have hpf : s ++ "_" ++ body.name ∈ probeForms body.name := by
      fin_cases hs <;> simp [probeForms]
    have h2 := hforms _ hpf
    refine ⟨h2.2, ?_⟩
    intro hmem
    exact h2.1 (by simp [tickKeyUniverse, hmem])
  unfold updateBody
  rw [show LINEAR_BASES = ⟨"hati", "x"⟩ :: [⟨"hatj", "y"⟩] from rfl]
  rw [update_state_inertial env gas deltaT prev "s" "v" "a" body.name
    ⟨"hati", "x"⟩ [⟨"hatj", "y"⟩] (fun x => x.linear) (fun x => x.angular)
    ANGULAR_BASES 2 body.linear hEq
    (by rw [show (⟨"hati", "x"⟩ : Basis) :: [⟨"hatj", "y"⟩] = LINEAR_BASES from rfl]
        exact hallLin)]
  dsimp only
  rw [show ANGULAR_BASES = ⟨"hatk", "theta"⟩ :: ([] : List Basis) from rfl]
  rw [update_state_inertial env gas deltaT prev "q" "omega" "alpha" body.name
    ⟨"hatk", "theta"⟩ [] (fun x => x.angular) (fun x => x.linear)
    (⟨"hati", "x"⟩ :: [⟨"hatj", "y"⟩]) 1 body.angular hEq
    (by rw [show (⟨"hatk", "theta"⟩ : Basis) :: ([] : List Basis) = ANGULAR_BASES from rfl,
           show (⟨"hati", "x"⟩ : Basis) :: [⟨"hatj", "y"⟩] = LINEAR_BASES from rfl]
        exact hallAng)]
  rfl

end IterPhys

namespace IterPhys

/-- The whole integration loop maps the inertial continuation over the
bodies when nothing is defined for any of them. -/
theorem integrateAll_inertial (env : Environment) (gas : Nat) (deltaT : ℚ)
    (prev : List BodyM) (hEq : env.equations = []) :
    ∀ (bodies : List BodyM),
      (∀ b ∈ bodies, ∀ f ∈ probeForms b.name,
        f ∉ tickKeyUniverse prev ∧ mlookup env.constants f = none) →
      integrateAll env (gas + 2) deltaT prev bodies
        = (bodies.map (inertialBody deltaT), none) := by
  intro bodies
  induction bodies with
  | nil => intro h; simp [integrateAll]
  | cons b rest ih =>
    intro h
    have hb := updateBody_inertial env gas deltaT prev b hEq
      (fun f hf => h b (by simp) f hf)
    have hr := ih (fun x hx f hf => h x (by simp [hx]) f hf)
    simp only [integrateAll, hb, hr, List.map]

/-- A collider that reports nothing leaves pair processing inert. -/
theorem processPairs_none (collider : BodyM → BodyM → Option Collision2)
    (sq : ℚ → ℚ) (e : ℚ) (hnone : ∀ x y, collider x y = none) :
    ∀ (a : BodyM) (rest : List BodyM),
      processPairs collider sq e a rest = (a, rest, []) := by
  intro a rest
  induction rest generalizing a with
  | nil => simp [processPairs]
  | cons b r ih => simp [processPairs, hnone, ih]

/-- A collider that reports nothing leaves the collision phase inert. -/
theorem collisionPhase_none (collider : BodyM → BodyM → Option Collision2)
    (sq : ℚ → ℚ) (e : ℚ) (hnone : ∀ x y, collider x y = none)
    (bodies : List BodyM) :
    collisionPhase collider sq e bodies = (bodies, []) := by
  unfold collisionPhase
  generalize bodies.length = n
  induction n generalizing bodies with
  | zero => simp [collisionLoop]
  | succ n ih =>
    cases bodies with
    | nil => simp [collisionLoop]
    | cons a rest =>
      simp [collisionLoop, processPairs_none collider sq e hnone, ih]

/-- Iterated inertial displacement steps add up. -/
theorem lplus_lscale_add (x y : List ℚ) (c d : ℚ) :
    lplus (lplus x (lscale c y)) (lscale d y) = lplus x (lscale (c + d) y) := by
  induction x generalizing y with
  | nil => simp [lplus, lscale]
  | cons a xs ih =>
    cases y with
    | nil => simp [lplus, lscale]
    | cons b ys =>
      simp only [lplus, lscale, List.map, List.zipWith, List.cons.injEq]
      exact ⟨by ring, ih ys⟩

/-- A zero-scaled inertial step is the identity when the velocity
vector is at least as long as the displacement vector. -/
theorem lplus_lscale_zero (x y : List ℚ) (h : x.length ≤ y.length) :
    lplus x (lscale 0 y) = x := by
  induction x generalizing y with
  | nil => simp [lplus, lscale]
  | cons a xs ih =>
    cases y with
    | nil => simp at h
    | cons b ys =>
      simp only [lplus, lscale, List.map, List.zipWith, List.cons.injEq]
      exact ⟨by ring, ih ys (by simpa using h)⟩

end IterPhys

namespace IterPhys

/-- The collision phase over a single body does nothing. -/
theorem collisionPhase_single (collider : BodyM → BodyM → Option Collision2)
    (sq : ℚ → ℚ) (e : ℚ) (x : BodyM) :
    collisionPhase collider sq e [x] = ([x], []) := by
  simp [collisionPhase, collisionLoop, processPairs]

/-- C7 (amended): with an environment that defines no equations, none
of whose constants capture a probed symbol, and body names that do not
collide with any injected override key, a tick in which the collider
reports no contact advances every displacement by velocity times delta
t and leaves every velocity and acceleration unchanged; consequently a
single body (whose pairless tick never consults the collider) satisfies
displacement after N ticks equal to initial displacement plus N delta t
times the initial velocity, in both motion kinds. -/
theorem c7_inertial_continuation (collider : BodyM → BodyM → Option Collision2)
    (sq : ℚ → ℚ) (env : Environment) (gas : Nat) (deltaT e : ℚ)
    (hEq : env.equations = []) :
    (∀ (bodies : List BodyM),
      (∀ b ∈ bodies, ∀ f ∈ probeForms b.name,
        f ∉ tickKeyUniverse bodies ∧ mlookup env.constants f = none) →
      (∀ x y, collider x y = none) →
      tickM collider sq env (gas + 2) deltaT e bodies
        = (bodies.map (inertialBody deltaT), .ok []))
    ∧ (∀ (b : BodyM) (n : Nat),
        (∀ f ∈ probeForms b.name,
          f ∉ tickKeyUniverse [b] ∧ mlookup env.constants f = none) →
        b.linear.displacement.length ≤ b.linear.velocity.length →
        b.angular.displacement.length ≤ b.angular.velocity.length →
        runTicks collider sq env (gas + 2) deltaT e n [b]
          = [inertialBody ((n : ℚ) * deltaT) b]) := by
  constructor
  · intro bodies hforms hnone
    unfold tickM
    rw [integrateAll_inertial env gas deltaT bodies hEq bodies hforms]
    dsimp only
    rw [collisionPhase_none collider sq e hnone]
  · intro b n hforms hlin hang
    induction n with
    | zero =>
      show [b] = _
      rw [show ((0 : ℕ) : ℚ) * deltaT = 0 by push_cast; ring]
      simp only [inertialBody]
      rw [lplus_lscale_zero _ _ hlin, lplus_lscale_zero _ _ hang]
    | succ n ih =>
      have hstep : runTicks collider sq env (gas + 2) deltaT e (n + 1) [b]
          = (tickM collider sq env (gas + 2) deltaT e
              (runTicks collider sq env (gas + 2) deltaT e n [b])).1 := rfl
      rw [hstep, ih]
      have hforms2 : ∀ f ∈ probeForms (inertialBody ((n : ℚ) * deltaT) b).name,
          f ∉ tickKeyUniverse [inertialBody ((n : ℚ) * deltaT) b]
          ∧ mlookup env.constants f = none := by
        intro f hf
        exact hforms f hf
      have hint := integrateAll_inertial env gas deltaT
        [inertialBody ((n : ℚ) * deltaT) b] hEq [inertialBody ((n : ℚ) * deltaT) b]
        (fun x hx f hf => by
          rcases List.mem_singleton.mp hx with rfl
          exact hforms2 f hf)
      unfold tickM
      rw [hint]
      simp only [List.map]
      rw [collisionPhase_single]
      simp only [inertialBody]
      simp only [List.cons.injEq, and_true]
      congr 1
      · congr 1
        rw [lplus_lscale_add]
        congr 1
        push_cast
        ring_nf
      · congr 1
        rw [lplus_lscale_add]
        congr 1
        push_cast
        ring_nf

end IterPhys

namespace IterPhys

/-- Witness for C7: a two-body engine with no equations and a silent
collider integrates both bodies inertially in one tick, and a single
gliding body reaches displacement initial plus N delta t velocity
after N equal to two ticks. -/
theorem c7_inertial_continuation_witness :
    tickM collNone sqId envEmpty 60 (1 / 2) 1 [fixBody "A" 0 0 3 0, fixBody "B" 5 5 0 0]
      = ([fixBody "A" (3 / 2) 0 3 0, fixBody "B" 5 5 0 0].map id, .ok [])
    ∧ runTicks collNone sqId envEmpty 60 (1 / 2) 1 2 [fixBody "B" 0 0 3 0]
      = [fixBody "B" 3 0 3 0] := by
  have hc := c7_inertial_continuation collNone sqId envEmpty 58 (1 / 2) 1 rfl
  constructor
  · have h := hc.1 [fixBody "A" 0 0 3 0, fixBody "B" 5 5 0 0] (by decide)
      (fun x y => rfl)
    rw [h]
    norm_num [inertialBody, lplus, lscale, fixBody, List.zipWith]
  · have h := hc.2 (fixBody "B" 0 0 3 0) 2 (by decide) (by decide) (by decide)
    rw [h]
    norm_num [inertialBody, lplus, lscale, fixBody, List.zipWith]

set_option maxRecDepth 100000 in
/-- Counterexample for C7 as frozen: an engine whose environment
defines no equations but whose bodies collide.  After one tick the
impulse response has changed both velocities, so a tick does not in
general leave velocities unchanged. -/
theorem c7_counterexample :
    ((tickM collOnce sqId envEmpty 60 1 1
        [fixBody "A" 0 0 0 1, fixBody "B" 0 3 0 (-1)]).1.map
      (fun b => b.linear.velocity) = [[0, -1], [0, 1]])
    ∧ ([[0, -1], [0, 1]] : List (List ℚ)) ≠ [[0, 1], [0, -1]] := by
  constructor
  · norm_num +decide [tickM, integrateAll, updateBody, update_state, eval_impl,
      probeLoop, overridesKvs, insertAll, minsert, envEvaluate, evaluate,
      resolveCandidates, findRootLoop, evalArgs, mlookup, flookup, firstSuccess,
      firstUnsatisfied, applyOp, qpow, qabs, EPSILON, MAX_DEPTH, envEmpty,
      buildEnv, buildStep, builtinFunctions, builtinConstants, LINEAR_BASES,
      ANGULAR_BASES, fixBody, colNew, lplus, lscale, List.zipWith,
      collisionPhase, collisionLoop, processPairs, apply_impulse, applyImpulseTo,
      calculate_impulse, vRelN, invMassSum, angTerm, impulseDenom, penVec,
      pointVelocity, apply_correction, collOnce, CORRECTIVE_FRAMES, sqId,
      vunit, vmag, vdot, vplus, vscale, cross_both, cross_linear, vec2Of,
      scal1Of, listOfVec2]
  · intro h
    have := congrArg (fun l => (l.headD []).getD 1 0) h
    norm_num at this

end IterPhys

namespace IterPhys

end IterPhys

namespace IterPhys

end IterPhys

namespace IterPhys

end IterPhys

namespace IterPhys

end IterPhys

namespace IterPhys

end IterPhys
